import Mathlib

/-! A verification development for `script.js` (the to-do list).

The program keeps an array `tasks` of `{ text, done }` records, persists it as
JSON text under the `localStorage` key `todoTasks`, and rebuilds the `<ul>` of
rows from the array after every mutation.

The embedding below follows `script.js` function by function.  The platform
functions the script calls (`JSON.parse`, `JSON.stringify`, `String.prototype.trim`,
`parseInt`, `String(n)`, `localStorage`) are modelled after ECMA-262 / ECMA-404.
-/

namespace TodoApp

/-! ## Strings -/

/-- A JavaScript string: the list of its UTF-16 code units (numbers below 65536). -/
abbrev JSString := List Nat

/-- UTF-16 code units of one Unicode scalar value. -/
def utf16 (c : Char) : List Nat :=
  if c.toNat < 65536 then [c.toNat]
  else [55296 + (c.toNat - 65536) / 1024, 56320 + (c.toNat - 65536) % 1024]

/-- The JavaScript string written by a string literal. -/
def js (s : String) : JSString :=
  s.toList.flatMap utf16

/-! ## JSON values -/

/-- The values `JSON.parse` can return.  A number is kept as the exact decimal
`± coeff * 10 ^ exp10` that its token denotes (the double the engine stores is the
rounding of that decimal).  An object is the list of its own properties in order
of creation. -/
inductive JSVal where
  | null : JSVal
  | bool (b : Bool) : JSVal
  | num (negative : Bool) (coeff : Nat) (exp10 : Int) : JSVal
  | str (s : JSString) : JSVal
  | arr (elems : List JSVal) : JSVal
  | obj (props : List (JSString × JSVal)) : JSVal

/-- An exception thrown by the engine or the platform. -/
inductive JSError where
  | typeError : JSError
  | quotaExceeded : JSError
  deriving DecidableEq, Repr

/-! ## `JSON.parse` (ECMA-404 grammar) -/

/-- JSON insignificant whitespace: space, tab, line feed, carriage return. -/
def isJsonWs (c : Nat) : Bool :=
  c == 32 || c == 9 || c == 10 || c == 13

/-- Drop leading JSON whitespace. -/
def skipWs : JSString → JSString
  | [] => []
  | c :: rest => if isJsonWs c then skipWs rest else c :: rest

/-- Decimal digit `0`..`9`. -/
def isDigit (c : Nat) : Bool :=
  48 ≤ c && c ≤ 57

/-- Value of a hexadecimal digit (either case). -/
def hexVal (c : Nat) : Option Nat :=
  if 48 ≤ c && c ≤ 57 then some (c - 48)
  else if 97 ≤ c && c ≤ 102 then some (c - 87)
  else if 65 ≤ c && c ≤ 70 then some (c - 55)
  else none

/-- The characters of a JSON string token after the opening quote, up to and
including the closing quote; returns the decoded string and the remaining input. -/
def parseChars : Nat → JSString → Option (JSString × JSString)
  | 0, _ => none
  | _ + 1, [] => none
  | fuel + 1, c :: rest =>
    if c == 34 then some ([], rest)
    else if c == 92 then
      match rest with
      | [] => none
      | e :: rest1 =>
        if e == 117 then
          match rest1 with
          | h1 :: h2 :: h3 :: h4 :: rest2 =>
            match hexVal h1, hexVal h2, hexVal h3, hexVal h4 with
            | some a, some b, some c3, some d =>
              (parseChars fuel rest2).map
                (fun r => ((a * 4096 + b * 256 + c3 * 16 + d) :: r.1, r.2))
            | _, _, _, _ => none
          | _ => none
        else
          let dec : Option Nat :=
            if e == 34 then some 34
            else if e == 92 then some 92
            else if e == 47 then some 47
            else if e == 98 then some 8
            else if e == 102 then some 12
            else if e == 110 then some 10
            else if e == 114 then some 13
            else if e == 116 then some 9
            else none
          match dec with
          | none => none
          | some u => (parseChars fuel rest1).map (fun r => (u :: r.1, r.2))
    else if c < 32 then none
    else (parseChars fuel rest).map (fun r => (c :: r.1, r.2))

/-- Read a maximal run of decimal digits: the number read onto `acc`, how many
digits were read, and the remaining input. -/
def readDigits : JSString → Nat → Nat → Nat × Nat × JSString
  | [], acc, k => (acc, k, [])
  | c :: rest, acc, k =>
    if isDigit c then readDigits rest (acc * 10 + (c - 48)) (k + 1) else (acc, k, c :: rest)

/-- A JSON number token without its sign: `int frac? exp?`. -/
def parseNumber (negative : Bool) (s : JSString) : Option (JSVal × JSString) :=
  let intPart : Option (Nat × JSString) :=
    match s with
    | [] => none
    | c :: rest =>
      if c == 48 then some (0, rest)
      else if isDigit c then
        let r := readDigits (c :: rest) 0 0
        some (r.1, r.2.2)
      else none
  match intPart with
  | none => none
  | some (i, s1) =>
    let fracPart : Option (Nat × Nat × JSString) :=
      match s1 with
      | 46 :: s2 =>
        let r := readDigits s2 i 0
        if r.2.1 == 0 then none else some r
      | _ => some (i, 0, s1)
    match fracPart with
    | none => none
    | some (m, fl, s3) =>
      let expAfter (sign : Bool) (s4 : JSString) : Option (JSVal × JSString) :=
        let r := readDigits s4 0 0
        if r.2.1 == 0 then none
        else
          let e : Int := if sign then - (r.1 : Int) else (r.1 : Int)
          some (JSVal.num negative m (e - (fl : Int)), r.2.2)
      match s3 with
      | c :: s4 =>
        if c == 101 || c == 69 then
          match s4 with
          | 43 :: s5 => expAfter false s5
          | 45 :: s5 => expAfter true s5
          | _ => expAfter false s4
        else some (JSVal.num negative m (- (fl : Int)), s3)
      | [] => some (JSVal.num negative m (- (fl : Int)), s3)

/-- CreateDataProperty on a JSON object under construction: a repeated key
overwrites the earlier value in place, a new key is added at the end. -/
def setProp (props : List (JSString × JSVal)) (k : JSString) (v : JSVal) :
    List (JSString × JSVal) :=
  match props with
  | [] => [(k, v)]
  | (k1, v1) :: rest => if k1 = k then (k, v) :: rest else (k1, v1) :: setProp rest k v

mutual
/-- One JSON value at the head of the input (no leading whitespace). -/
def parseValue : Nat → JSString → Option (JSVal × JSString)
  | 0, _ => none
  | _ + 1, [] => none
  | fuel + 1, c :: rest =>
    if c == 110 then
      match rest with
      | 117 :: 108 :: 108 :: r => some (JSVal.null, r)
      | _ => none
    else if c == 116 then
      match rest with
      | 114 :: 117 :: 101 :: r => some (JSVal.bool true, r)
      | _ => none
    else if c == 102 then
      match rest with
      | 97 :: 108 :: 115 :: 101 :: r => some (JSVal.bool false, r)
      | _ => none
    else if c == 34 then
      (parseChars (rest.length + 1) rest).map (fun r => (JSVal.str r.1, r.2))
    else if c == 45 then parseNumber true rest
    else if isDigit c then parseNumber false (c :: rest)
    else if c == 91 then
      match skipWs rest with
      | 93 :: r => some (JSVal.arr [], r)
      | r => (parseElements fuel r []).map (fun p => (JSVal.arr p.1, p.2))
    else if c == 123 then
      match skipWs rest with
      | 125 :: r => some (JSVal.obj [], r)
      | r => (parseMembers fuel r []).map (fun p => (JSVal.obj p.1, p.2))
    else none
/-- The elements of a non-empty array, from the first element to the closing
bracket; `acc` holds the elements read so far. -/
def parseElements : Nat → JSString → List JSVal → Option (List JSVal × JSString)
  | 0, _, _ => none
  | fuel + 1, s, acc =>
    match parseValue fuel s with
    | none => none
    | some (v, s1) =>
      match skipWs s1 with
      | 93 :: r => some (acc ++ [v], r)
      | 44 :: r => parseElements fuel (skipWs r) (acc ++ [v])
      | _ => none
/-- The members of a non-empty object, from the first key to the closing brace. -/
def parseMembers : Nat → JSString → List (JSString × JSVal) →
    Option (List (JSString × JSVal) × JSString)
  | 0, _, _ => none
  | fuel + 1, s, acc =>
    match s with
    | 34 :: s0 =>
      match parseChars (s0.length + 1) s0 with
      | none => none
      | some (k, s1) =>
        match skipWs s1 with
        | 58 :: s2 =>
          match parseValue fuel (skipWs s2) with
          | none => none
          | some (v, s3) =>
            match skipWs s3 with
            | 125 :: r => some (setProp acc k v, r)
            | 44 :: r => parseMembers fuel (skipWs r) (setProp acc k v)
            | _ => none
        | _ => none
    | _ => none
end

/-- The function `JSON.parse(text)`; `none` is a thrown SyntaxError.  Every unit of
fuel spent is matched by a code unit of the text (an opening bracket, a comma, the
first unit of a value), so the length of the text plus one is enough fuel. -/
def JSON.parse (text : JSString) : Option JSVal :=
  match parseValue (text.length + 1) (skipWs text) with
  | some (v, rest) => if skipWs rest = [] then some v else none
  | none => none

/-! ## `JSON.stringify` on the task array -/

/-- Lower-case hexadecimal digit for a value below 16. -/
def hexChar (d : Nat) : Nat :=
  if d < 10 then 48 + d else 87 + d

/-- UnicodeEscape: backslash, `u` and four lower-case hexadecimal digits. -/
def unicodeEscape (c : Nat) : JSString :=
  [92, 117, hexChar (c / 4096 % 16), hexChar (c / 256 % 16), hexChar (c / 16 % 16),
    hexChar (c % 16)]

/-- Leading (high) surrogate code unit. -/
def isHighSurrogate (c : Nat) : Bool :=
  55296 ≤ c && c ≤ 56319

/-- Trailing (low) surrogate code unit. -/
def isLowSurrogate (c : Nat) : Bool :=
  56320 ≤ c && c ≤ 57343

/-- How QuoteJSONString writes one code point that is not part of a surrogate pair. -/
def quoteUnit (c : Nat) : JSString :=
  if c == 8 then [92, 98]
  else if c == 9 then [92, 116]
  else if c == 10 then [92, 110]
  else if c == 12 then [92, 102]
  else if c == 13 then [92, 114]
  else if c == 34 then [92, 34]
  else if c == 92 then [92, 92]
  else if c < 32 || isHighSurrogate c || isLowSurrogate c then unicodeEscape c
  else [c]

/-- The body of QuoteJSONString: the string is read code point by code point, a
surrogate pair is copied, a lone surrogate is escaped. -/
def quoteChars : JSString → JSString
  | [] => []
  | [c] => quoteUnit c
  | c :: d :: rest =>
    if isHighSurrogate c && isLowSurrogate d then c :: d :: quoteChars rest
    else quoteUnit c ++ quoteChars (d :: rest)

/-- QuoteJSONString: the quoted, escaped form of a string. -/
def quoteJSONString (s : JSString) : JSString :=
  34 :: (quoteChars s ++ [34])

/-! ## The data model of `script.js` -/

/-- One element of the in-memory array: `{ text: string, done: boolean }` (line 17). -/
structure Task where
  text : JSString
  done : Bool
  deriving DecidableEq, Repr

/-- The property name `text`. -/
def keyText : JSString := [116, 101, 120, 116]

/-- The property name `done`. -/
def keyDone : JSString := [100, 111, 110, 101]

/-- The task record as a JavaScript object: own properties `text`, `done`, in the
order the literal `{ text, done: false }` creates them. -/
def Task.toJSVal (t : Task) : JSVal :=
  JSVal.obj [(keyText, JSVal.str t.text), (keyDone, JSVal.bool t.done)]

/-- What `JSON.stringify` writes for one task record:
an opening brace, `"text":`, the quoted text, `,"done":`, `true` or `false`, a closing brace. -/
def stringifyTask (t : Task) : JSString :=
  [123, 34, 116, 101, 120, 116, 34, 58] ++ quoteJSONString t.text ++
    [44, 34, 100, 111, 110, 101, 34, 58] ++
    (if t.done then [116, 114, 117, 101] else [102, 97, 108, 115, 101]) ++ [125]

/-- The elements of the array text, separated by commas. -/
def stringifyElems : List Task → JSString
  | [] => []
  | [t] => stringifyTask t
  | t :: u :: rest => stringifyTask t ++ 44 :: stringifyElems (u :: rest)

/-- The function `JSON.stringify(tasks)` for an array of task records (no indentation). -/
def JSON.stringify (tasks : List Task) : JSString :=
  91 :: (stringifyElems tasks ++ [93])

/-! ## `trim`, `parseInt`, `String(n)` -/

/-- ECMAScript WhiteSpace and LineTerminator code points, the ones `trim` and
`parseInt` strip. -/
def isWhiteSpace (c : Nat) : Bool :=
  c == 9 || c == 10 || c == 11 || c == 12 || c == 13 || c == 32 || c == 160 ||
  c == 5760 || (8192 ≤ c && c ≤ 8202) || c == 8232 || c == 8233 || c == 8239 ||
  c == 8287 || c == 12288 || c == 65279

/-- The method `String.prototype.trim`. -/
def trim (s : JSString) : JSString :=
  ((s.dropWhile isWhiteSpace).reverse.dropWhile isWhiteSpace).reverse

/-- The call `parseInt(s, 10)`; `none` is NaN.  The result is the mathematical
integer read; the double the engine returns is its rounding, which compares with
an array length the same way, and `-0` indexes like `0`. -/
def parseInt10 (s : JSString) : Option Int :=
  let t := s.dropWhile isWhiteSpace
  let signed : Bool × JSString :=
    match t with
    | 45 :: r => (true, r)
    | 43 :: r => (false, r)
    | _ => (false, t)
  let r := readDigits signed.2 0 0
  if r.2.1 == 0 then none
  else some (if signed.1 then - (r.1 : Int) else (r.1 : Int))

/-- Decimal digits of `n`, most significant first. -/
def decDigits : Nat → Nat → List Nat
  | 0, _ => []
  | fuel + 1, n => if n < 10 then [48 + n] else decDigits fuel (n / 10) ++ [48 + n % 10]

/-- The call `String(index)` for an array index. -/
def numberToString (n : Nat) : JSString :=
  decDigits (n + 1) n

/-! ## Reading a loaded element -/

/-- The property read `v.name` for a name that no built-in prototype defines (the
script reads `text` and `done`): a TypeError on `null`, the own property of an
object, `undefined` (`none`) otherwise. -/
def getProperty (v : JSVal) (name : JSString) : Except JSError (Option JSVal) :=
  match v with
  | JSVal.null => Except.error JSError.typeError
  | JSVal.obj props => Except.ok ((props.find? (fun p => p.1 = name)).map (fun p => p.2))
  | _ => Except.ok none

/-- Whether the decimal `coeff * 10 ^ exp10` rounds to the double zero: it is at
most `2 ^ (-1075)`, half of the least positive double. -/
def roundsToZero (coeff : Nat) (exp10 : Int) : Bool :=
  if 0 ≤ exp10 then coeff == 0 else decide (coeff * 2 ^ 1075 ≤ 10 ^ exp10.natAbs)

/-- The conversion `Boolean(v)`; `none` is `undefined`. -/
def toBoolean : Option JSVal → Bool
  | none => false
  | some JSVal.null => false
  | some (JSVal.bool b) => b
  | some (JSVal.num _ coeff exp10) => !roundsToZero coeff exp10
  | some (JSVal.str s) => !s.isEmpty
  | some (JSVal.arr _) => true
  | some (JSVal.obj _) => true

/-! ## The view -/

/-- One `<li>` of the list: `dataset.index`, the value assigned to
`textSpan.textContent` (`none` is `undefined`; a string is shown as it is), and the
flag passed to `applyDoneVisual`. -/
structure Row where
  index : JSString
  text : Option JSVal
  done : Bool

/-- The function `createTaskElement(task, index, animate)` (lines 45-151).  The
styling and the fade-in animation do not enter the row's data; the three click
handlers are `doneBtnClick`, `delBtnClick` and `textSpanClick` below. -/
def createTaskElement (task : JSVal) (index : Nat) : Except JSError Row := do
  let text ← getProperty task keyText
  let done ← getProperty task keyDone
  pure { index := numberToString index, text := text, done := toBoolean done }

/-- The `forEach` of `renderTasks`, from array position `idx` on. -/
def renderFrom : Nat → List JSVal → Except JSError (List Row)
  | _, [] => pure []
  | idx, task :: rest => do
    let li ← createTaskElement task idx
    let more ← renderFrom (idx + 1) rest
    pure (li :: more)

/-- The rows `renderTasks` (lines 154-162) leaves in `#taskList` for the array
`tasks`: the list is emptied, then one row per element is appended in order. -/
def renderRows (tasks : List JSVal) : Except JSError (List Row) :=
  renderFrom 0 tasks

/-! ## Loading -/

/-- The function `loadTasks` (lines 21-30).  `raw` is what
`localStorage.getItem('todoTasks')` returns (`none` is `null`).  A falsy `raw`
(`null` or the empty string) gives `[]`; a SyntaxError of `JSON.parse` is caught and
gives `[]`; a parsed value that is not an array gives `[]`; a parsed array is kept
as it is. -/
def loadTasks (raw : Option JSString) : List JSVal :=
  match raw with
  | none => []
  | some text =>
    if text = [] then []
    else
      match JSON.parse text with
      | none => []
      | some (JSVal.arr elems) => elems
      | some _ => []

/-- The array and the rows after start-up. -/
structure Startup where
  tasks : List JSVal
  rows : List Row

/-- The function `init` (lines 192-219) with the three required elements present:
`loadTasks()` then `renderTasks()`; the listeners are bound afterwards. -/
def init (raw : Option JSString) : Except JSError Startup := do
  let tasks := loadTasks raw
  let rows ← renderRows tasks
  pure { tasks := tasks, rows := rows }

/-- The children of `#taskList` when the `forEach` of `renderTasks` stops, from array
position `idx` on: one row per element, up to the first element on which
`createTaskElement` throws (the throw ends the loop, the rows appended before it
stay). -/
def rowsLeftFrom : Nat → List JSVal → List Row
  | _, [] => []
  | idx, task :: rest =>
    match createTaskElement task idx with
    | Except.ok li => li :: rowsLeftFrom (idx + 1) rest
    | Except.error _ => []

/-- The page once `init` has returned or thrown: the array `loadTasks` left and the
rows `renderTasks` appended to the emptied list. -/
def pageAfterInit (raw : Option JSString) : Startup :=
  { tasks := loadTasks raw, rows := rowsLeftFrom 0 (loadTasks raw) }

/-! ## The running program -/

/-- The state of the page while the array holds task records. -/
structure State where
  /-- The in-memory array `tasks`. -/
  tasks : List Task
  /-- The value stored under `todoTasks` (`none`: no entry). -/
  store : Option JSString
  /-- The children of `#taskList`. -/
  rows : List Row
  /-- The content `taskInput.value`. -/
  input : JSString
  /-- Whether the script has given the focus to `taskInput`. -/
  inputFocused : Bool
  /-- Number of `console.error` calls. -/
  consoleErrors : Nat

/-- The call `localStorage.setItem('todoTasks', value)`.  `accepts` tells which
writes the store takes; a refused write throws. -/
def setItem (accepts : JSString → Bool) (value : JSString) : Except JSError (Option JSString) :=
  if accepts value then Except.ok (some value) else Except.error JSError.quotaExceeded

/-- The function `saveTasks` (lines 33-41): the write is attempted, a thrown error
is caught and logged. -/
def saveTasks (accepts : JSString → Bool) (s : State) : State :=
  match setItem accepts (JSON.stringify s.tasks) with
  | Except.ok stored => { s with store := stored }
  | Except.error _ => { s with consoleErrors := s.consoleErrors + 1 }

/-- The function `renderTasks` on the state. -/
def renderTasks (s : State) : Except JSError State := do
  let rows ← renderRows (s.tasks.map Task.toJSVal)
  pure { s with rows := rows }

/-- The assignment `tasks[idx].done = !tasks[idx].done`. -/
def toggleAt (tasks : List Task) (idx : Nat) : Except JSError (List Task) :=
  match tasks[idx]? with
  | some t => Except.ok (tasks.set idx { t with done := !t.done })
  | none => Except.error JSError.typeError

/-- The click handler of the done button (lines 98-109) on a row whose
`dataset.index` is `datasetIndex`.  The call `applyDoneVisual` restyles the clicked
row, which `renderTasks` then discards. -/
def doneBtnClick (accepts : JSString → Bool) (s : State) (datasetIndex : JSString) :
    Except JSError State :=
  match parseInt10 datasetIndex with
  | none => pure s
  | some idx =>
    if idx < 0 ∨ idx ≥ (s.tasks.length : Int) then pure s
    else do
      let tasks ← toggleAt s.tasks idx.toNat
      let s1 := saveTasks accepts { s with tasks := tasks }
      renderTasks s1

/-- The click handler of the delete button (lines 112-118). -/
def delBtnClick (accepts : JSString → Bool) (s : State) (datasetIndex : JSString) :
    Except JSError State :=
  match parseInt10 datasetIndex with
  | none => pure s
  | some idx =>
    if idx < 0 ∨ idx ≥ (s.tasks.length : Int) then pure s
    else
      let s1 := saveTasks accepts { s with tasks := s.tasks.eraseIdx idx.toNat }
      renderTasks s1

/-- The click handler of the task text (lines 121-127). -/
def textSpanClick (accepts : JSString → Bool) (s : State) (datasetIndex : JSString) :
    Except JSError State :=
  match parseInt10 datasetIndex with
  | none => pure s
  | some idx =>
    if idx < 0 ∨ idx ≥ (s.tasks.length : Int) then pure s
    else do
      let tasks ← toggleAt s.tasks idx.toNat
      let s1 := saveTasks accepts { s with tasks := tasks }
      renderTasks s1

/-- The function `addNewTask` (lines 165-189). -/
def addNewTask (accepts : JSString → Bool) (s : State) : Except JSError State :=
  let text := trim s.input
  if text = [] then
    pure { s with input := [], inputFocused := true }
  else do
    let newTask : Task := { text := text, done := false }
    let s1 := saveTasks accepts { s with tasks := s.tasks ++ [newTask] }
    let li ← createTaskElement newTask.toJSVal (s1.tasks.length - 1)
    let s2 := { s1 with rows := s1.rows ++ [li] }
    let s3 := { s2 with input := [], inputFocused := true }
    renderTasks s3

/-- What the user can do: submit the input field holding `text` (add button or
Enter), or click one of the three controls of a row whose `dataset.index` is the
given string. -/
inductive Action where
  | submit (text : JSString) : Action
  | clickDone (datasetIndex : JSString) : Action
  | clickText (datasetIndex : JSString) : Action
  | clickDelete (datasetIndex : JSString) : Action

/-- One event of the page. -/
def step (accepts : JSString → Bool) (s : State) : Action → Except JSError State
  | Action.submit text => addNewTask accepts { s with input := text }
  | Action.clickDone d => doneBtnClick accepts s d
  | Action.clickText d => textSpanClick accepts s d
  | Action.clickDelete d => delBtnClick accepts s d

/-- View and state agree: one row per task, and the row at position `i` carries the
index `i`, the text and the done flag of the task at position `i`. -/
def ViewAgrees (s : State) : Prop :=
  s.rows.length = s.tasks.length ∧
  ∀ i : Nat, ∀ t : Task, s.tasks[i]? = some t →
    ∃ r : Row, s.rows[i]? = some r ∧ r.index = numberToString i ∧
      r.text = some (JSVal.str t.text) ∧ r.done = t.done

/-! ## Auxiliary definitions for the statements -/

/-- The rows that show a list of task records whose first element sits at array
position `idx`. -/
def taskRows : Nat → List Task → List Row
  | _, [] => []
  | idx, t :: rest =>
    { index := numberToString idx, text := some (JSVal.str t.text), done := t.done } ::
      taskRows (idx + 1) rest

/-- Whether the handlers get past their guard for this `dataset.index`: it parses
to an integer `idx` with `0 <= idx < tasks.length`. -/
def inRange (s : State) (datasetIndex : JSString) : Bool :=
  match parseInt10 datasetIndex with
  | none => false
  | some idx => decide (0 ≤ idx ∧ idx < (s.tasks.length : Int))

/-- The events that change the task list: a submit whose trimmed text is not
empty, and a toggle or delete click that gets past the guard. -/
def mutating (s : State) : Action → Bool
  | Action.submit text => !(trim text).isEmpty
  | Action.clickDone d => inRange s d
  | Action.clickText d => inRange s d
  | Action.clickDelete d => inRange s d

/-- The store entry holds the serialization of the in-memory list, and loading it
gives the in-memory list. -/
def Flushed (s : State) : Prop :=
  s.store = some (JSON.stringify s.tasks) ∧ loadTasks s.store = s.tasks.map Task.toJSVal

/-- A store that takes every write. -/
def acceptAll : JSString → Bool := fun _ => true

/-- A store that refuses every write (full or unavailable). -/
def rejectAll : JSString → Bool := fun _ => false

/-- The page right after start-up with no stored entry. -/
def emptyState : State :=
  { tasks := [], store := none, rows := [], input := [], inputFocused := false,
    consoleErrors := 0 }

/-- A page with two tasks, `a` (open) and `b` (done), rendered and stored. -/
def twoTasks : State :=
  { tasks := [{ text := [97], done := false }, { text := [98], done := true }],
    store := some (JSON.stringify [{ text := [97], done := false }, { text := [98], done := true }]),
    rows := taskRows 0 [{ text := [97], done := false }, { text := [98], done := true }],
    input := [], inputFocused := false, consoleErrors := 0 }

/-! ## `JSON.parse` reads back what `JSON.stringify` writes -/

theorem hexVal_hexChar (d : Nat) (h : d < 16) : hexVal (hexChar d) = some d := by
  interval_cases d <;> rfl

theorem parseChars_unicodeEscape (n c : Nat) (tail : JSString) (h : c < 65536) :
    parseChars (n + 1) (unicodeEscape c ++ tail) =
      (parseChars n tail).map (fun r => (c :: r.1, r.2)) := by
  have h1 := hexVal_hexChar (c / 4096 % 16) (Nat.mod_lt _ (by norm_num))
  have h2 := hexVal_hexChar (c / 256 % 16) (Nat.mod_lt _ (by norm_num))
  have h3 := hexVal_hexChar (c / 16 % 16) (Nat.mod_lt _ (by norm_num))
  have h4 := hexVal_hexChar (c % 16) (Nat.mod_lt _ (by norm_num))
  have e : c / 4096 % 16 * 4096 + c / 256 % 16 * 256 + c / 16 % 16 * 16 + c % 16 = c := by
    omega
  simp [unicodeEscape, parseChars, h1, h2, h3, h4, e]

theorem parseChars_quoteUnit (n c : Nat) (tail : JSString) :
    parseChars (n + 1) (quoteUnit c ++ tail) =
      (parseChars n tail).map (fun r => (c :: r.1, r.2)) := by
  unfold quoteUnit
  split_ifs with h8 h9 h10 h12 h13 h34 h92 hesc
  · simp at h8; subst h8; simp [parseChars]
  · simp at h9; subst h9; simp [parseChars]
  · simp at h10; subst h10; simp [parseChars]
  · simp at h12; subst h12; simp [parseChars]
  · simp at h13; subst h13; simp [parseChars]
  · simp at h34; subst h34; simp [parseChars]
  · simp at h92; subst h92; simp [parseChars]
  · apply parseChars_unicodeEscape
    simp [isHighSurrogate, isLowSurrogate] at hesc
    omega
  · simp [isHighSurrogate, isLowSurrogate] at hesc h34 h92
    have h32 : ¬ c < 32 := by omega
    simp [parseChars, h34, h92, h32]

theorem parseChars_quoteChars (s : JSString) :
    ∀ (n : Nat) (tail : JSString), s.length < n →
      parseChars n (quoteChars s ++ 34 :: tail) = some (s, tail) := by
  induction s using quoteChars.induct with
  | case1 =>
    intro n tail hn
    obtain ⟨m, rfl⟩ : ∃ m, n = m + 1 := ⟨n - 1, by simp at hn; omega⟩
    simp [quoteChars, parseChars]
  | case2 c =>
    intro n tail hn
    obtain ⟨m, rfl⟩ : ∃ m, n = m + 2 := ⟨n - 2, by simp at hn; omega⟩
    rw [quoteChars, parseChars_quoteUnit]
    simp [parseChars]
  | case3 c d rest hpair ih =>
    intro n tail hn
    obtain ⟨m, rfl⟩ : ∃ m, n = m + 2 := ⟨n - 2, by simp at hn; omega⟩
    have hm : rest.length < m := by simp at hn; omega
    simp [isHighSurrogate, isLowSurrogate] at hpair
    have e : quoteChars (c :: d :: rest) = c :: d :: quoteChars rest := by
      simp [quoteChars, isHighSurrogate, isLowSurrogate, hpair]
    rw [e]
    have hc : ¬ c = 34 := by omega
    have hc2 : ¬ c = 92 := by omega
    have hc3 : ¬ c < 32 := by omega
    have hd : ¬ d = 34 := by omega
    have hd2 : ¬ d = 92 := by omega
    have hd3 : ¬ d < 32 := by omega
    simp [parseChars, hc, hc2, hc3, hd, hd2, hd3, ih m tail hm]
  | case4 c d rest hpair ih =>
    intro n tail hn
    obtain ⟨m, rfl⟩ : ∃ m, n = m + 1 := ⟨n - 1, by simp at hn; omega⟩
    have hm : (d :: rest).length < m := by simp at hn ⊢; omega
    have e : quoteChars (c :: d :: rest) = quoteUnit c ++ quoteChars (d :: rest) := by
      simp [quoteChars, hpair]
    rw [e, List.append_assoc, parseChars_quoteUnit, ih m tail hm]
    rfl

theorem quoteUnit_length (c : Nat) : 1 ≤ (quoteUnit c).length := by
  unfold quoteUnit unicodeEscape
  split_ifs <;> simp

theorem quoteChars_length (s : JSString) : s.length ≤ (quoteChars s).length := by
  induction s using quoteChars.induct with
  | case1 => simp [quoteChars]
  | case2 c => simpa [quoteChars] using quoteUnit_length c
  | case3 c d rest hpair ih =>
    have e : quoteChars (c :: d :: rest) = c :: d :: quoteChars rest := by
      simp [quoteChars, hpair]
    rw [e]
    simp
    omega
  | case4 c d rest hpair ih =>
    have e : quoteChars (c :: d :: rest) = quoteUnit c ++ quoteChars (d :: rest) := by
      simp [quoteChars, hpair]
    rw [e]
    have := quoteUnit_length c
    simp at ih ⊢
    omega

theorem parseChars_quoted (s tail : JSString) :
    parseChars ((quoteChars s ++ 34 :: tail).length + 1) (quoteChars s ++ 34 :: tail) =
      some (s, tail) := by
  apply parseChars_quoteChars
  have := quoteChars_length s
  simp
  omega

theorem parseValue_quoteJSONString (s tail : JSString) (n : Nat) :
    parseValue (n + 1) (quoteJSONString s ++ tail) = some (JSVal.str s, tail) := by
  simp [quoteJSONString, parseValue]
  simpa using parseChars_quoted s tail

theorem parseValue_bool (b : Bool) (tail : JSString) (n : Nat) :
    parseValue (n + 1) ((if b then [116, 114, 117, 101] else [102, 97, 108, 115, 101]) ++ tail) =
      some (JSVal.bool b, tail) := by
  cases b <;> simp [parseValue]

theorem quoteChars_keyText : quoteChars keyText = keyText := by decide

theorem quoteChars_keyDone : quoteChars keyDone = keyDone := by decide

theorem stringifyTask_eq (t : Task) (tail : JSString) :
    stringifyTask t ++ tail =
      123 :: 34 :: (quoteChars keyText ++ 34 :: 58 :: (quoteJSONString t.text ++
        44 :: 34 :: (quoteChars keyDone ++ 34 :: 58 ::
          ((if t.done then [116, 114, 117, 101] else [102, 97, 108, 115, 101]) ++
            125 :: tail)))) := by
  rw [quoteChars_keyText, quoteChars_keyDone]
  simp [stringifyTask, keyText, keyDone]

theorem skipWs_cons (c : Nat) (rest : JSString) (h : isJsonWs c = false) :
    skipWs (c :: rest) = c :: rest := by
  simp [skipWs, h]

theorem skipWs_quoteJSONString (s tail : JSString) :
    skipWs (quoteJSONString s ++ tail) = quoteJSONString s ++ tail := by
  simp [quoteJSONString, skipWs, isJsonWs]

theorem skipWs_boolText (b : Bool) (tail : JSString) :
    skipWs ((if b then [116, 114, 117, 101] else [102, 97, 108, 115, 101]) ++ tail) =
      (if b then [116, 114, 117, 101] else [102, 97, 108, 115, 101]) ++ tail := by
  cases b <;> simp [skipWs, isJsonWs]

theorem parseValue_objectStart (m : Nat) (rest : JSString) :
    parseValue (m + 1) (123 :: 34 :: rest) =
      (parseMembers m (34 :: rest) []).map (fun p => (JSVal.obj p.1, p.2)) := by
  simp [parseValue, skipWs, isJsonWs, isDigit]

theorem parseMembers_member (m : Nat) (k rest : JSString) (acc : List (JSString × JSVal)) :
    parseMembers (m + 1) (34 :: (quoteChars k ++ 34 :: 58 :: rest)) acc =
      match parseValue m (skipWs rest) with
      | none => none
      | some (v, s3) =>
        match skipWs s3 with
        | 125 :: r => some (setProp acc k v, r)
        | 44 :: r => parseMembers m (skipWs r) (setProp acc k v)
        | _ => none := by
  rw [parseMembers]
  simp only [parseChars_quoted, skipWs_cons 58 _ (by decide)]

theorem parseValue_stringifyTask (t : Task) (tail : JSString) (n : Nat) :
    parseValue (n + 4) (stringifyTask t ++ tail) = some (t.toJSVal, tail) := by
  rw [stringifyTask_eq, parseValue_objectStart, parseMembers_member, skipWs_quoteJSONString,
    parseValue_quoteJSONString]
  simp only [skipWs_cons 44 _ (by decide), skipWs_cons 34 _ (by decide)]
  rw [parseMembers_member, skipWs_boolText, parseValue_bool]
  simp [skipWs, isJsonWs, setProp, Task.toJSVal, keyText, keyDone]

theorem stringifyTask_head (t : Task) (tail : JSString) :
    ∃ r, stringifyTask t ++ tail = 123 :: r := by
  exact ⟨_, stringifyTask_eq t tail⟩

theorem stringifyElems_head (t : Task) (ts : List Task) (tail : JSString) :
    ∃ r, stringifyElems (t :: ts) ++ tail = 123 :: r := by
  cases ts with
  | nil => exact stringifyTask_head t tail
  | cons u rest =>
    obtain ⟨r, hr⟩ := stringifyTask_head t (44 :: stringifyElems (u :: rest) ++ tail)
    exact ⟨r, by simpa [stringifyElems] using hr⟩

theorem skipWs_stringifyElems (t : Task) (ts : List Task) (tail : JSString) :
    skipWs (stringifyElems (t :: ts) ++ tail) = stringifyElems (t :: ts) ++ tail := by
  obtain ⟨r, hr⟩ := stringifyElems_head t ts tail
  rw [hr]
  exact skipWs_cons 123 r (by decide)

theorem parseElements_stringifyElems (ts : List Task) :
    ∀ (t : Task) (n : Nat) (acc : List JSVal) (tail : JSString), ts.length + 5 ≤ n →
      parseElements n (stringifyElems (t :: ts) ++ 93 :: tail) acc =
        some (acc ++ (t :: ts).map Task.toJSVal, tail) := by
  induction ts with
  | nil =>
    intro t n acc tail hn
    obtain ⟨m, rfl⟩ : ∃ m, n = m + 5 := ⟨n - 5, by simp at hn; omega⟩
    rw [parseElements]
    simp [stringifyElems, parseValue_stringifyTask, skipWs, isJsonWs]
  | cons u rest ih =>
    intro t n acc tail hn
    obtain ⟨m, rfl⟩ : ∃ m, n = m + 5 := ⟨n - 5, by simp at hn; omega⟩
    have hm : rest.length + 5 ≤ m + 4 := by simp at hn; omega
    rw [parseElements]
    have e : stringifyElems (t :: u :: rest) ++ 93 :: tail =
        stringifyTask t ++ 44 :: (stringifyElems (u :: rest) ++ 93 :: tail) := by
      simp [stringifyElems]
    rw [e, parseValue_stringifyTask]
    simp only [skipWs_cons 44 _ (by decide), skipWs_stringifyElems]
    rw [ih u (m + 4) (acc ++ [t.toJSVal]) tail hm]
    simp

theorem stringifyElems_length (ts : List Task) : ts.length * 4 ≤ (stringifyElems ts).length := by
  induction ts with
  | nil => simp [stringifyElems]
  | cons t rest ih =>
    cases rest with
    | nil => simp [stringifyElems, stringifyTask]
    | cons u rest2 =>
      simp [stringifyElems, stringifyTask] at ih ⊢
      omega

theorem parseValue_arrayStart (m : Nat) (rest : JSString) :
    parseValue (m + 1) (91 :: 123 :: rest) =
      (parseElements m (123 :: rest) []).map (fun p => (JSVal.arr p.1, p.2)) := by
  simp [parseValue, skipWs, isJsonWs, isDigit]

/-- Parsing the text `JSON.stringify` writes for a task array gives the array back. -/
theorem parse_stringify (ts : List Task) :
    JSON.parse (JSON.stringify ts) = some (JSVal.arr (ts.map Task.toJSVal)) := by
  cases ts with
  | nil => rfl
  | cons t rest =>
    have hlen := stringifyElems_length (t :: rest)
    have hskip : skipWs (JSON.stringify (t :: rest)) = JSON.stringify (t :: rest) := by
      exact skipWs_cons 91 _ (by decide)
    obtain ⟨r, hr⟩ := stringifyElems_head t rest [93]
    have hfuel : rest.length + 5 ≤ (stringifyElems (t :: rest) ++ [93]).length + 1 := by
      simp at hlen ⊢
      omega
    have hp := parseElements_stringifyElems rest t _ [] [] hfuel
    unfold JSON.parse
    rw [hskip]
    simp only [JSON.stringify, List.length_cons]
    rw [hr] at hp ⊢
    rw [parseValue_arrayStart, hp]
    simp [skipWs]

/-! ## `parseInt` reads back `String(index)` -/

theorem readDigits_decDigits (f : Nat) :
    ∀ (n : Nat) (rest : JSString) (acc k : Nat), n < f →
      ∃ len, 1 ≤ len ∧
        readDigits (decDigits f n ++ rest) acc k = readDigits rest (acc * 10 ^ len + n) (k + len) := by
  induction f with
  | zero => intro n rest acc k h; omega
  | succ f ih =>
    intro n rest acc k h
    by_cases h10 : n < 10
    · refine ⟨1, le_refl _, ?_⟩
      have hd : isDigit (48 + n) = true := by simp [isDigit]; omega
      simp [decDigits, h10, readDigits, hd]
    · have hlt : n / 10 < f := by omega
      obtain ⟨len, hlen, e⟩ := ih (n / 10) ((48 + n % 10) :: rest) acc k hlt
      refine ⟨len + 1, by omega, ?_⟩
      have hd : isDigit (48 + n % 10) = true := by simp [isDigit]; omega
      simp only [decDigits, h10, if_false, List.append_assoc, List.singleton_append]
      rw [e, readDigits]
      simp only [hd, if_true]
      have e1 : (acc * 10 ^ len + n / 10) * 10 + (48 + n % 10 - 48) = acc * 10 ^ (len + 1) + n := by
        rw [pow_succ]
        have := Nat.div_add_mod n 10
        have e2 : 48 + n % 10 - 48 = n % 10 := by omega
        rw [e2]
        nlinarith
      rw [e1]
      rfl

theorem decDigits_head (f : Nat) :
    ∀ n : Nat, n < f → ∃ d ds, decDigits f n = d :: ds ∧ isDigit d = true := by
  induction f with
  | zero => intro n h; omega
  | succ f ih =>
    intro n h
    by_cases h10 : n < 10
    · refine ⟨48 + n, [], by simp [decDigits, h10], ?_⟩
      simp [isDigit]; omega
    · obtain ⟨d, ds, e, hd⟩ := ih (n / 10) (by omega)
      exact ⟨d, ds ++ [48 + n % 10], by simp [decDigits, h10, e], hd⟩

/-- Reading back the index a row was given: `parseInt(String(i), 10)` is `i`. -/
theorem parseInt10_numberToString (n : Nat) : parseInt10 (numberToString n) = some (n : Int) := by
  obtain ⟨d, ds, e, hd⟩ := decDigits_head (n + 1) n (by omega)
  obtain ⟨len, hlen, hr⟩ := readDigits_decDigits (n + 1) n [] 0 0 (by omega)
  have hws : isWhiteSpace d = false := by
    simp [isDigit] at hd
    simp [isWhiteSpace]
    omega
  have h45 : d ≠ 45 := by simp [isDigit] at hd; omega
  have h43 : d ≠ 43 := by simp [isDigit] at hd; omega
  unfold parseInt10 numberToString
  simp only [List.append_nil] at hr
  rw [e] at hr ⊢
  simp only [List.dropWhile, hws]
  have hsigned : (match d :: ds with
      | 45 :: r => (true, r)
      | 43 :: r => (false, r)
      | _ => (false, d :: ds)) = (false, d :: ds) := by
    split
    · rename_i h; simp at h; omega
    · rename_i h; simp at h; omega
    · rfl
  rw [hsigned, hr]
  have hl : ¬ len = 0 := by omega
  simp [readDigits, hl]

/-! ## Rendering task records -/

theorem createTaskElement_task (t : Task) (idx : Nat) :
    createTaskElement t.toJSVal idx =
      Except.ok { index := numberToString idx, text := some (JSVal.str t.text), done := t.done } := by
  have hk : ¬ keyText = keyDone := by decide
  simp [createTaskElement, Task.toJSVal, getProperty, List.find?, hk, toBoolean, bind,
    Except.bind, pure, Except.pure]

theorem renderFrom_tasks (ts : List Task) :
    ∀ idx : Nat, renderFrom idx (ts.map Task.toJSVal) = Except.ok (taskRows idx ts) := by
  induction ts with
  | nil => intro idx; rfl
  | cons t rest ih =>
    intro idx
    simp [renderFrom, createTaskElement_task, ih, taskRows, bind, Except.bind, pure, Except.pure]

theorem renderRows_tasks (ts : List Task) :
    renderRows (ts.map Task.toJSVal) = Except.ok (taskRows 0 ts) :=
  renderFrom_tasks ts 0

theorem renderTasks_eq (s : State) :
    renderTasks s = Except.ok { s with rows := taskRows 0 s.tasks } := by
  simp [renderTasks, renderRows_tasks, bind, Except.bind, pure, Except.pure]

theorem taskRows_length (ts : List Task) : ∀ idx : Nat, (taskRows idx ts).length = ts.length := by
  induction ts with
  | nil => intro idx; rfl
  | cons t rest ih => intro idx; simp [taskRows, ih]

theorem taskRows_getElem? (ts : List Task) :
    ∀ (idx i : Nat) (t : Task), ts[i]? = some t →
      (taskRows idx ts)[i]? =
        some { index := numberToString (idx + i), text := some (JSVal.str t.text), done := t.done } := by
  induction ts with
  | nil => intro idx i t h; simp at h
  | cons u rest ih =>
    intro idx i t h
    cases i with
    | zero =>
      simp at h
      subst h
      simp [taskRows]
    | succ j =>
      simp at h
      have := ih (idx + 1) j t h
      simp [taskRows, this]
      congr 1
      omega

theorem viewAgrees_of_rows (s : State) (h : s.rows = taskRows 0 s.tasks) : ViewAgrees s := by
  refine ⟨by rw [h, taskRows_length], ?_⟩
  intro i t ht
  refine ⟨_, by rw [h]; exact taskRows_getElem? s.tasks 0 i t ht, ?_, rfl, rfl⟩
  simp

/-! ## The store -/

theorem saveTasks_accepted (accepts : JSString → Bool) (s : State)
    (h : accepts (JSON.stringify s.tasks) = true) :
    saveTasks accepts s = { s with store := some (JSON.stringify s.tasks) } := by
  simp [saveTasks, setItem, h]

theorem saveTasks_rejected (accepts : JSString → Bool) (s : State)
    (h : accepts (JSON.stringify s.tasks) = false) :
    saveTasks accepts s = { s with consoleErrors := s.consoleErrors + 1 } := by
  simp [saveTasks, setItem, h]

theorem saveTasks_tasks (accepts : JSString → Bool) (s : State) :
    (saveTasks accepts s).tasks = s.tasks := by
  unfold saveTasks
  split <;> rfl

theorem saveTasks_rows (accepts : JSString → Bool) (s : State) :
    (saveTasks accepts s).rows = s.rows := by
  unfold saveTasks
  split <;> rfl

theorem loadTasks_stringify (ts : List Task) :
    loadTasks (some (JSON.stringify ts)) = ts.map Task.toJSVal := by
  have hne : ¬ JSON.stringify ts = [] := by simp [JSON.stringify]
  simp [loadTasks, hne, parse_stringify]

/-! ## The handlers past and before their guard -/

theorem toggleAt_lt (tasks : List Task) (i : Nat) (h : i < tasks.length) :
    toggleAt tasks i =
      Except.ok (tasks.set i { text := tasks[i].text, done := !tasks[i].done }) := by
  simp [toggleAt, List.getElem?_eq_getElem h]

theorem inRange_iff (s : State) (d : JSString) :
    inRange s d = true ↔ ∃ i : Nat, i < s.tasks.length ∧ parseInt10 d = some (i : Int) := by
  unfold inRange
  constructor
  · intro h
    split at h
    · simp at h
    · rename_i idx hidx
      simp at h
      refine ⟨idx.toNat, by omega, ?_⟩
      rw [hidx]
      congr 1
      omega
  · rintro ⟨i, hi, hp⟩
    simp [hp]
    exact hi

theorem doneBtnClick_inRange (accepts : JSString → Bool) (s : State) (d : JSString) (i : Nat)
    (hi : i < s.tasks.length) (hp : parseInt10 d = some (i : Int)) :
    doneBtnClick accepts s d =
      Except.ok { saveTasks accepts
          { s with tasks := s.tasks.set i { text := s.tasks[i].text, done := !s.tasks[i].done } } with
        rows := taskRows 0 (s.tasks.set i { text := s.tasks[i].text, done := !s.tasks[i].done }) } := by
  have hg : ¬ ((i : Int) < 0 ∨ (i : Int) ≥ (s.tasks.length : Int)) := by omega
  simp only [doneBtnClick, hp, hg, if_false, Int.toNat_ofNat, toggleAt_lt s.tasks i hi]
  simp [bind, Except.bind, renderTasks_eq, saveTasks_tasks]

theorem textSpanClick_eq (accepts : JSString → Bool) (s : State) (d : JSString) :
    textSpanClick accepts s d = doneBtnClick accepts s d := rfl

theorem delBtnClick_inRange (accepts : JSString → Bool) (s : State) (d : JSString) (i : Nat)
    (hi : i < s.tasks.length) (hp : parseInt10 d = some (i : Int)) :
    delBtnClick accepts s d =
      Except.ok { saveTasks accepts { s with tasks := s.tasks.eraseIdx i } with
        rows := taskRows 0 (s.tasks.eraseIdx i) } := by
  have hg : ¬ ((i : Int) < 0 ∨ (i : Int) ≥ (s.tasks.length : Int)) := by omega
  simp only [delBtnClick, hp, hg, if_false, Int.toNat_ofNat]
  simp [renderTasks_eq, saveTasks_tasks]

theorem guard_of_not_inRange (accepts : JSString → Bool) (s : State) (d : JSString) (h : inRange s d = false) :
    doneBtnClick accepts s d = Except.ok s ∧ textSpanClick accepts s d = Except.ok s ∧
      delBtnClick accepts s d = Except.ok s := by
  unfold inRange at h
  unfold doneBtnClick textSpanClick delBtnClick
  split at h
  · rename_i hp
    simp [hp, pure, Except.pure]
  · rename_i idx hp
    simp at h
    have hg : idx < 0 ∨ idx ≥ (s.tasks.length : Int) := by
      by_cases h0 : 0 ≤ idx
      · right; exact h h0
      · left; omega
    simp [hp, hg, pure, Except.pure]

theorem addNewTask_nonblank (accepts : JSString → Bool) (s : State) (h : trim s.input ≠ []) :
    addNewTask accepts s =
      Except.ok { saveTasks accepts
          { s with tasks := s.tasks ++ [{ text := trim s.input, done := false }] } with
        rows := taskRows 0 (s.tasks ++ [{ text := trim s.input, done := false }]),
        input := [], inputFocused := true } := by
  simp [addNewTask, h, createTaskElement_task, renderTasks_eq, saveTasks_tasks, bind, Except.bind]

theorem addNewTask_blank_eq (accepts : JSString → Bool) (s : State) (h : trim s.input = []) :
    addNewTask accepts s = Except.ok { s with input := [], inputFocused := true } := by
  simp [addNewTask, h, pure, Except.pure]

theorem trim_eq_nil_of_whitespace (input : JSString) (h : ∀ c ∈ input, isWhiteSpace c = true) :
    trim input = [] := by
  have e : input.dropWhile isWhiteSpace = [] := by
    rw [List.dropWhile_eq_nil_iff]
    exact h
  simp [trim, e]

theorem inRange_numberToString (s : State) (i : Nat) (h : i < s.tasks.length) :
    inRange s (numberToString i) = true :=
  (inRange_iff s _).2 ⟨i, h, parseInt10_numberToString i⟩

theorem not_inRange_of_invalid (s : State) (d : JSString)
    (h : parseInt10 d = none ∨
      ∃ idx : Int, parseInt10 d = some idx ∧ (idx < 0 ∨ idx ≥ (s.tasks.length : Int))) :
    inRange s d = false := by
  unfold inRange
  rcases h with h | ⟨idx, hp, hr⟩
  · simp [h]
  · simp [hp]
    omega

theorem saveTasks_store (accepts : JSString → Bool) (s : State) :
    (saveTasks accepts s).store =
      if accepts (JSON.stringify s.tasks) then some (JSON.stringify s.tasks) else s.store := by
  unfold saveTasks setItem
  split_ifs <;> rfl

theorem saveTasks_consoleErrors (accepts : JSString → Bool) (s : State) :
    (saveTasks accepts s).consoleErrors =
      if accepts (JSON.stringify s.tasks) then s.consoleErrors else s.consoleErrors + 1 := by
  unfold saveTasks setItem
  split_ifs <;> rfl

theorem set_toggle_ne (tasks : List Task) (i : Nat) (h : i < tasks.length) :
    tasks.set i { text := tasks[i].text, done := !tasks[i].done } ≠ tasks := by
  intro e
  have h1 : (tasks.set i { text := tasks[i].text, done := !tasks[i].done })[i]? = tasks[i]? := by
    rw [e]
  simp [List.getElem?_set, h, List.getElem?_eq_getElem h] at h1
  have h2 := congrArg Task.done h1
  simp at h2

theorem eraseIdx_ne (tasks : List Task) (i : Nat) (h : i < tasks.length) :
    tasks.eraseIdx i ≠ tasks := by
  intro e
  have h1 := congrArg List.length e
  rw [List.length_eraseIdx, if_pos h] at h1
  omega

/-- What an event that changes the list does, whatever the store answers. -/
theorem step_mutating (s : State) (a : Action) (hm : mutating s a = true) :
    ∃ tasks1 : List Task, tasks1 ≠ s.tasks ∧
      ∀ accepts : JSString → Bool, ∃ s1 : State, step accepts s a = Except.ok s1 ∧
        s1.tasks = tasks1 ∧ s1.rows = taskRows 0 tasks1 ∧
        s1.store =
          (if accepts (JSON.stringify tasks1) then some (JSON.stringify tasks1) else s.store) ∧
        s1.consoleErrors =
          (if accepts (JSON.stringify tasks1) then s.consoleErrors else s.consoleErrors + 1) := by
  cases a with
  | submit text =>
    have ht : trim text ≠ [] := by
      intro e
      simp [mutating, e] at hm
    refine ⟨s.tasks ++ [{ text := trim text, done := false }], by simp, ?_⟩
    intro accepts
    exact ⟨_, addNewTask_nonblank accepts { s with input := text } ht,
      by simp [saveTasks_tasks], by simp, by simp [saveTasks_store],
      by simp [saveTasks_consoleErrors]⟩
  | clickDone d =>
    obtain ⟨i, hi, hp⟩ := (inRange_iff s d).1 hm
    refine ⟨_, set_toggle_ne s.tasks i hi, ?_⟩
    intro accepts
    exact ⟨_, doneBtnClick_inRange accepts s d i hi hp, by simp [saveTasks_tasks], by simp,
      by simp [saveTasks_store], by simp [saveTasks_consoleErrors]⟩
  | clickText d =>
    obtain ⟨i, hi, hp⟩ := (inRange_iff s d).1 hm
    refine ⟨_, set_toggle_ne s.tasks i hi, ?_⟩
    intro accepts
    exact ⟨_, doneBtnClick_inRange accepts s d i hi hp, by simp [saveTasks_tasks], by simp,
      by simp [saveTasks_store], by simp [saveTasks_consoleErrors]⟩
  | clickDelete d =>
    obtain ⟨i, hi, hp⟩ := (inRange_iff s d).1 hm
    refine ⟨_, eraseIdx_ne s.tasks i hi, ?_⟩
    intro accepts
    exact ⟨_, delBtnClick_inRange accepts s d i hi hp, by simp [saveTasks_tasks], by simp,
      by simp [saveTasks_store], by simp [saveTasks_consoleErrors]⟩

/-- What the other events do: nothing to the list, the rows, the store or the log. -/
theorem step_not_mutating (accepts : JSString → Bool) (s : State) (a : Action)
    (hm : mutating s a = false) :
    ∃ s1 : State, step accepts s a = Except.ok s1 ∧ s1.tasks = s.tasks ∧ s1.rows = s.rows ∧
      s1.store = s.store ∧ s1.consoleErrors = s.consoleErrors := by
  cases a with
  | submit text =>
    have ht : trim text = [] := by
      simpa [mutating] using hm
    exact ⟨_, addNewTask_blank_eq accepts { s with input := text } ht, rfl, rfl, rfl, rfl⟩
  | clickDone d => exact ⟨s, (guard_of_not_inRange accepts s d hm).1, rfl, rfl, rfl, rfl⟩
  | clickText d => exact ⟨s, (guard_of_not_inRange accepts s d hm).2.1, rfl, rfl, rfl, rfl⟩
  | clickDelete d => exact ⟨s, (guard_of_not_inRange accepts s d hm).2.2, rfl, rfl, rfl, rfl⟩

theorem viewAgrees_congr (s s1 : State) (ht : s1.tasks = s.tasks) (hr : s1.rows = s.rows)
    (h : ViewAgrees s) : ViewAgrees s1 := by
  unfold ViewAgrees at h ⊢
  rw [ht, hr]
  exact h

/-- On a page whose array holds task records, every event returns normally and keeps
view and state in agreement. -/
theorem step_viewAgrees (accepts : JSString → Bool) (s : State) (a : Action) (h : ViewAgrees s) :
    ∃ s1 : State, step accepts s a = Except.ok s1 ∧ ViewAgrees s1 := by
  cases hm : mutating s a with
  | true =>
    obtain ⟨tasks1, _, hall⟩ := step_mutating s a hm
    obtain ⟨s1, hs, ht, hr, _, _⟩ := hall accepts
    exact ⟨s1, hs, viewAgrees_of_rows s1 (by rw [hr, ht])⟩
  | false =>
    obtain ⟨s1, hs, ht, hr, _, _⟩ := step_not_mutating accepts s a hm
    exact ⟨s1, hs, viewAgrees_congr s s1 ht hr h⟩

theorem init_stringify (ts : List Task) :
    init (some (JSON.stringify ts)) =
      Except.ok { tasks := ts.map Task.toJSVal, rows := taskRows 0 ts } := by
  simp [init, loadTasks_stringify, renderRows_tasks, bind, Except.bind, pure, Except.pure]

theorem loadTasks_array (text : JSString) (elems : List JSVal)
    (h : JSON.parse text = some (JSVal.arr elems)) : loadTasks (some text) = elems := by
  have hne : ¬ text = [] := by
    intro e
    rw [e] at h
    have hn : JSON.parse [] = none := rfl
    rw [hn] at h
    exact Option.noConfusion h
  simp [loadTasks, hne, h]

theorem loadTasks_syntaxError (text : JSString) (h : JSON.parse text = none) :
    loadTasks (some text) = [] := by
  simp [loadTasks, h]

/-- Whenever `renderTasks` completes on a loaded array, whatever its elements are,
there is one row per element, and row `i` carries the index of its position and what
the reads `task.text` and `Boolean(task.done)` give for the element at that position. -/
theorem renderFrom_agrees (tasks : List JSVal) :
    ∀ (idx : Nat) (rows : List Row), renderFrom idx tasks = Except.ok rows →
      rows.length = tasks.length ∧
      ∀ (i : Nat) (v : JSVal), tasks[i]? = some v →
        ∃ r : Row, rows[i]? = some r ∧ r.index = numberToString (idx + i) ∧
          getProperty v keyText = Except.ok r.text ∧
          ∃ d : Option JSVal, getProperty v keyDone = Except.ok d ∧ r.done = toBoolean d := by
  induction tasks with
  | nil =>
    intro idx rows h
    simp [renderFrom, pure, Except.pure] at h
    subst h
    simp
  | cons v rest ih =>
    intro idx rows h
    simp only [renderFrom, createTaskElement, bind, Except.bind, pure, Except.pure] at h
    cases ht : getProperty v keyText with
    | error e => simp [ht] at h
    | ok text =>
      cases hd : getProperty v keyDone with
      | error e => simp [ht, hd] at h
      | ok done =>
        cases hr : renderFrom (idx + 1) rest with
        | error e => simp [ht, hd, hr] at h
        | ok more =>
          simp [ht, hd, hr] at h
          subst h
          obtain ⟨hlen, hrows⟩ := ih (idx + 1) more hr
          refine ⟨by simp [hlen], ?_⟩
          intro i w hw
          cases i with
          | zero =>
            simp at hw
            subst hw
            exact ⟨{ index := numberToString idx, text := text, done := toBoolean done },
              by simp, by simp, ht, done, hd, rfl⟩
          | succ j =>
            simp at hw
            obtain ⟨r, h1, h2, h3⟩ := hrows j w hw
            refine ⟨r, by simpa using h1, ?_, h3⟩
            rw [h2]
            congr 1
            omega

/-- When `renderTasks` completes, the rows it leaves are the rows it returns. -/
theorem rowsLeftFrom_of_ok (tasks : List JSVal) :
    ∀ (idx : Nat) (rows : List Row), renderFrom idx tasks = Except.ok rows →
      rowsLeftFrom idx tasks = rows := by
  induction tasks with
  | nil =>
    intro idx rows h
    simp [renderFrom, pure, Except.pure] at h
    subst h
    rfl
  | cons v rest ih =>
    intro idx rows h
    simp only [renderFrom, bind, Except.bind, pure, Except.pure] at h
    cases hc : createTaskElement v idx with
    | error e => simp [hc] at h
    | ok li =>
      cases hr : renderFrom (idx + 1) rest with
      | error e => simp [hc, hr] at h
      | ok more =>
        simp [hc, hr] at h
        subst h
        simp [rowsLeftFrom, hc, ih (idx + 1) more hr]

/-- When `init` completes, the page it leaves is the one it returns. -/
theorem pageAfterInit_of_ok (raw : Option JSString) (st : Startup)
    (h : init raw = Except.ok st) : pageAfterInit raw = st := by
  unfold init at h
  simp only [bind, Except.bind, pure, Except.pure] at h
  cases hr : renderRows (loadTasks raw) with
  | error e => simp [hr] at h
  | ok rows =>
    simp [hr] at h
    subst h
    simp [pageAfterInit, rowsLeftFrom_of_ok (loadTasks raw) 0 rows hr]

/-- Start-up from an entry `saveTasks` wrote: the array is the saved list and the
rows agree with it. -/
theorem pageAfterInit_stringify (ts : List Task) :
    pageAfterInit (some (JSON.stringify ts)) =
      { tasks := ts.map Task.toJSVal, rows := taskRows 0 ts } :=
  pageAfterInit_of_ok _ _ (init_stringify ts)

/-! ## The claims -/

/-- C1 (the code departs from the claim): the entry `[null]` loads as the one-element
array `[null]`, not as the empty list, and start-up then throws a TypeError when
`createTaskElement` reads `task.text`; the entries `[1]` and `[{"text":"a"}]` also
load as they are, with their malformed element kept. -/
theorem loadTasks_keeps_malformed_elements :
    loadTasks (some (js "[null]")) = [JSVal.null] ∧
    init (some (js "[null]")) = Except.error JSError.typeError ∧
    loadTasks (some (js "[1]")) = [JSVal.num false 1 0] ∧
    loadTasks (some (js "[\x7b\"text\":\"a\"\x7d]")) = [JSVal.obj [(keyText, JSVal.str [97])]] :=
  ⟨rfl, rfl, rfl, rfl⟩

/-- C2: when the store takes the write, `saveTasks` followed by `loadTasks` gives
back the task list: the loaded array is the list of the same records, in the same
order (so of the same length), and `saveTasks` leaves the in-memory list alone. -/
theorem save_then_load (accepts : JSString → Bool) (s : State)
    (h : accepts (JSON.stringify s.tasks) = true) :
    loadTasks (saveTasks accepts s).store = s.tasks.map Task.toJSVal ∧
    (loadTasks (saveTasks accepts s).store).length = s.tasks.length ∧
    (∀ (i : Nat) (t : Task), s.tasks[i]? = some t →
      (loadTasks (saveTasks accepts s).store)[i]? =
        some (JSVal.obj [(keyText, JSVal.str t.text), (keyDone, JSVal.bool t.done)])) ∧
    (saveTasks accepts s).tasks = s.tasks := by
  have e : loadTasks (saveTasks accepts s).store = s.tasks.map Task.toJSVal := by
    rw [saveTasks_accepted accepts s h]
    exact loadTasks_stringify s.tasks
  refine ⟨e, by rw [e, List.length_map], ?_, saveTasks_tasks accepts s⟩
  intro i t ht
  rw [e, List.getElem?_map, ht]
  rfl

/-- The round trip on the two-task page. -/
theorem save_then_load_witness :
    loadTasks (saveTasks acceptAll twoTasks).store = twoTasks.tasks.map Task.toJSVal ∧
    (loadTasks (saveTasks acceptAll twoTasks).store).length = twoTasks.tasks.length ∧
    (∀ (i : Nat) (t : Task), twoTasks.tasks[i]? = some t →
      (loadTasks (saveTasks acceptAll twoTasks).store)[i]? =
        some (JSVal.obj [(keyText, JSVal.str t.text), (keyDone, JSVal.bool t.done)])) ∧
    (saveTasks acceptAll twoTasks).tasks = twoTasks.tasks :=
  save_then_load acceptAll twoTasks rfl

/-- C3: when the trimmed input is not empty, `addNewTask` succeeds and the task
list becomes the old list followed by the one task `{ text: trim(input), done: false }`;
the earlier elements keep their positions. -/
theorem addNewTask_appends (accepts : JSString → Bool) (s : State) (h : trim s.input ≠ []) :
    ∃ s1 : State, addNewTask accepts s = Except.ok s1 ∧
      s1.tasks = s.tasks ++ [{ text := trim s.input, done := false }] ∧
      s1.tasks.length = s.tasks.length + 1 ∧
      ∀ i : Nat, i < s.tasks.length → s1.tasks[i]? = s.tasks[i]? := by
  refine ⟨_, addNewTask_nonblank accepts s h, ?_, ?_, ?_⟩
  · simp [saveTasks_tasks]
  · simp [saveTasks_tasks]
  · intro i hi
    simp [saveTasks_tasks, List.getElem?_append_left hi]

/-- The input ` buy milk ` appends the task `buy milk`, not done. -/
theorem addNewTask_appends_witness :
    trim (js " buy milk ") = js "buy milk" ∧
    ∃ s1 : State, addNewTask acceptAll { twoTasks with input := js " buy milk " } = Except.ok s1 ∧
      s1.tasks = twoTasks.tasks ++ [{ text := trim (js " buy milk "), done := false }] ∧
      s1.tasks.length = twoTasks.tasks.length + 1 ∧
      ∀ i : Nat, i < twoTasks.tasks.length → s1.tasks[i]? = twoTasks.tasks[i]? :=
  ⟨by decide, addNewTask_appends acceptAll { twoTasks with input := js " buy milk " } (by decide)⟩

/-- C4: when the input is empty or holds only whitespace, `addNewTask` changes
nothing but the input field, which is cleared and focused: task list, store entry,
rows and log are as before. -/
theorem addNewTask_blank (accepts : JSString → Bool) (s : State)
    (h : ∀ c ∈ s.input, isWhiteSpace c = true) :
    addNewTask accepts s = Except.ok { s with input := [], inputFocused := true } :=
  addNewTask_blank_eq accepts s (trim_eq_nil_of_whitespace s.input h)

/-- Three spaces submitted on the two-task page. -/
theorem addNewTask_blank_witness :
    addNewTask rejectAll { twoTasks with input := js "   " } =
      Except.ok { twoTasks with input := [], inputFocused := true } :=
  addNewTask_blank rejectAll { twoTasks with input := js "   " } (by decide)

/-- C5: for `i < length`, a click on the done button of row `i` succeeds, negates
`done` of the element at position `i`, keeps its `text`, every other element, the
length and the order; a click on the text does the same; a second toggle of row `i`
gives back the original task list. -/
theorem toggle_row (accepts accepts2 : JSString → Bool) (s : State) (i : Nat)
    (h : i < s.tasks.length) :
    textSpanClick accepts s (numberToString i) = doneBtnClick accepts s (numberToString i) ∧
    ∃ s1 : State, doneBtnClick accepts s (numberToString i) = Except.ok s1 ∧
      s1.tasks.length = s.tasks.length ∧
      (∀ t : Task, s.tasks[i]? = some t →
        s1.tasks[i]? = some { text := t.text, done := !t.done }) ∧
      (∀ j : Nat, j ≠ i → s1.tasks[j]? = s.tasks[j]?) ∧
      ∃ s2 : State, doneBtnClick accepts2 s1 (numberToString i) = Except.ok s2 ∧
        textSpanClick accepts2 s1 (numberToString i) = Except.ok s2 ∧
        s2.tasks = s.tasks := by
  refine ⟨rfl, _, doneBtnClick_inRange accepts s _ i h (parseInt10_numberToString i), ?_, ?_, ?_, ?_⟩
  · simp [saveTasks_tasks]
  · intro t ht
    have e : s.tasks[i] = t := by
      rw [List.getElem?_eq_getElem h] at ht
      exact Option.some.inj ht
    simp [saveTasks_tasks, List.getElem?_set, h, e]
  · intro j hj
    simp [saveTasks_tasks, List.getElem?_set, Ne.symm hj]
  · have h1 : i < ({ saveTasks accepts
          { s with tasks := s.tasks.set i { text := s.tasks[i].text, done := !s.tasks[i].done } } with
        rows := taskRows 0 (s.tasks.set i { text := s.tasks[i].text, done := !s.tasks[i].done }) }
          : State).tasks.length := by
      simp [saveTasks_tasks, h]
    refine ⟨_, doneBtnClick_inRange accepts2 _ _ i h1 (parseInt10_numberToString i), ?_, ?_⟩
    · rw [textSpanClick_eq]
      exact doneBtnClick_inRange accepts2 _ _ i h1 (parseInt10_numberToString i)
    · simp [saveTasks_tasks]
      apply List.ext_getElem?
      intro j
      by_cases hj : i = j
      · subst hj
        simp [List.getElem?_set, h, List.getElem?_eq_getElem h]
      · simp [List.getElem?_set, hj]

/-- Row 1 of the two-task page toggled twice. -/
theorem toggle_row_witness :
    textSpanClick acceptAll twoTasks (numberToString 1) =
      doneBtnClick acceptAll twoTasks (numberToString 1) ∧
    ∃ s1 : State, doneBtnClick acceptAll twoTasks (numberToString 1) = Except.ok s1 ∧
      s1.tasks.length = twoTasks.tasks.length ∧
      (∀ t : Task, twoTasks.tasks[1]? = some t →
        s1.tasks[1]? = some { text := t.text, done := !t.done }) ∧
      (∀ j : Nat, j ≠ 1 → s1.tasks[j]? = twoTasks.tasks[j]?) ∧
      ∃ s2 : State, doneBtnClick rejectAll s1 (numberToString 1) = Except.ok s2 ∧
        textSpanClick rejectAll s1 (numberToString 1) = Except.ok s2 ∧
        s2.tasks = twoTasks.tasks :=
  toggle_row acceptAll rejectAll twoTasks 1 (by decide)

/-- C6: for `i < length`, a click on the delete button of row `i` succeeds and
leaves the original list with the element at position `i` removed: the length drops
by exactly one, the elements before `i` keep their positions and the elements after
`i` move down by one. -/
theorem delete_row (accepts : JSString → Bool) (s : State) (i : Nat) (h : i < s.tasks.length) :
    ∃ s1 : State, delBtnClick accepts s (numberToString i) = Except.ok s1 ∧
      s1.tasks.length + 1 = s.tasks.length ∧
      s1.tasks = s.tasks.take i ++ s.tasks.drop (i + 1) ∧
      (∀ j : Nat, j < i → s1.tasks[j]? = s.tasks[j]?) ∧
      (∀ j : Nat, i ≤ j → s1.tasks[j]? = s.tasks[j + 1]?) := by
  refine ⟨_, delBtnClick_inRange accepts s _ i h (parseInt10_numberToString i), ?_, ?_, ?_, ?_⟩
  · simp [saveTasks_tasks, List.length_eraseIdx, h]
    omega
  · simp [saveTasks_tasks, List.eraseIdx_eq_take_drop_succ]
  · intro j hj
    simp [saveTasks_tasks, List.getElem?_eraseIdx_of_lt _ _ _ hj]
  · intro j hj
    simp [saveTasks_tasks, List.getElem?_eraseIdx_of_ge _ _ _ hj]

/-- Row 0 of the two-task page deleted. -/
theorem delete_row_witness :
    ∃ s1 : State, delBtnClick acceptAll twoTasks (numberToString 0) = Except.ok s1 ∧
      s1.tasks.length + 1 = twoTasks.tasks.length ∧
      s1.tasks = twoTasks.tasks.take 0 ++ twoTasks.tasks.drop (0 + 1) ∧
      (∀ j : Nat, j < 0 → s1.tasks[j]? = twoTasks.tasks[j]?) ∧
      (∀ j : Nat, 0 ≤ j → s1.tasks[j]? = twoTasks.tasks[j + 1]?) :=
  delete_row acceptAll twoTasks 0 (by decide)

/-- C7: when the `dataset.index` of the clicked row does not parse as an integer, or
parses to a negative number or to one that is at least the length of the list, the
three click handlers return normally with the state as it was: the task list is
unchanged, nothing is written to the store and no error is raised. -/
theorem invalid_index_ignored (accepts : JSString → Bool) (s : State) (d : JSString)
    (h : parseInt10 d = none ∨
      ∃ idx : Int, parseInt10 d = some idx ∧ (idx < 0 ∨ idx ≥ (s.tasks.length : Int))) :
    doneBtnClick accepts s d = Except.ok s ∧ textSpanClick accepts s d = Except.ok s ∧
      delBtnClick accepts s d = Except.ok s :=
  guard_of_not_inRange accepts s d (not_inRange_of_invalid s d h)

/-- The indexes `2`, `-1` and `x` on the two-task page. -/
theorem invalid_index_ignored_witness :
    (doneBtnClick acceptAll twoTasks (js "2") = Except.ok twoTasks ∧
      textSpanClick acceptAll twoTasks (js "2") = Except.ok twoTasks ∧
      delBtnClick acceptAll twoTasks (js "2") = Except.ok twoTasks) ∧
    (doneBtnClick acceptAll twoTasks (js "-1") = Except.ok twoTasks ∧
      textSpanClick acceptAll twoTasks (js "-1") = Except.ok twoTasks ∧
      delBtnClick acceptAll twoTasks (js "-1") = Except.ok twoTasks) ∧
    (doneBtnClick acceptAll twoTasks (js "x") = Except.ok twoTasks ∧
      textSpanClick acceptAll twoTasks (js "x") = Except.ok twoTasks ∧
      delBtnClick acceptAll twoTasks (js "x") = Except.ok twoTasks) :=
  ⟨invalid_index_ignored acceptAll twoTasks (js "2") (Or.inr ⟨2, by decide, Or.inr (by decide)⟩),
   invalid_index_ignored acceptAll twoTasks (js "-1") (Or.inr ⟨-1, by decide, Or.inl (by decide)⟩),
   invalid_index_ignored acceptAll twoTasks (js "x") (Or.inl (by decide))⟩

/-- C8 (the code departs from the claim, by the defect of C1): after start-up from
the entry `[null]` the array holds one element and the list shows no row, since
`renderTasks` throws before it appends anything; after start-up from the entry
`[{"text":"a","done":false},null]` the array holds two elements and the list shows
one row.  The visible row count is not the length of the task list. -/
theorem startup_rows_fewer_than_tasks :
    init (some (js "[null]")) = Except.error JSError.typeError ∧
    (pageAfterInit (some (js "[null]"))).tasks.length = 1 ∧
    (pageAfterInit (some (js "[null]"))).rows.length = 0 ∧
    init (some (js "[\x7b\"text\":\"a\",\"done\":false\x7d,null]")) =
      Except.error JSError.typeError ∧
    (pageAfterInit (some (js "[\x7b\"text\":\"a\",\"done\":false\x7d,null]"))).tasks.length = 2 ∧
    (pageAfterInit (some (js "[\x7b\"text\":\"a\",\"done\":false\x7d,null]"))).rows.length = 1 :=
  ⟨rfl, rfl, rfl, rfl, rfl, rfl⟩

/-- C9: with a store that takes every write, every event returns normally; the
events that change the task list are exactly the non-blank submit and the in-range
toggle and delete clicks, and after each of them the store entry is the
serialization of the new in-memory list, so that loading it gives that list. -/
theorem store_follows_state (accepts : JSString → Bool) (s : State) (a : Action)
    (hacc : ∀ v : JSString, accepts v = true) :
    ∃ s1 : State, step accepts s a = Except.ok s1 ∧
      (s1.tasks ≠ s.tasks ↔ mutating s a = true) ∧
      (s1.tasks ≠ s.tasks → Flushed s1) := by
  cases hm : mutating s a with
  | true =>
    obtain ⟨tasks1, hne, hall⟩ := step_mutating s a hm
    obtain ⟨s1, hs, ht, _, hst, _⟩ := hall accepts
    refine ⟨s1, hs, ?_, ?_⟩
    · simp [ht, hne]
    · intro _
      rw [hacc, if_pos rfl] at hst
      refine ⟨by rw [hst, ht], ?_⟩
      rw [hst, ht]
      exact loadTasks_stringify tasks1
  | false =>
    obtain ⟨s1, hs, ht, _, _, _⟩ := step_not_mutating accepts s a hm
    refine ⟨s1, hs, ?_, ?_⟩
    · simp [ht]
    · intro hne
      exact absurd ht hne

/-- Deleting row 1 of the two-task page. -/
theorem store_follows_state_witness :
    ∃ s1 : State, step acceptAll twoTasks (Action.clickDelete (js "1")) = Except.ok s1 ∧
      (s1.tasks ≠ twoTasks.tasks ↔ mutating twoTasks (Action.clickDelete (js "1")) = true) ∧
      (s1.tasks ≠ twoTasks.tasks → Flushed s1) :=
  store_follows_state acceptAll twoTasks (Action.clickDelete (js "1")) (fun _ => rfl)

/-- C10: when the store refuses the write, a non-blank submit, an in-range toggle or
an in-range delete still returns normally; the task list is the changed list, the
same as with a store that takes the write; the store entry is as before; the rows
are those rendered from the new list, so view and state agree; the failure is
logged once. -/
theorem rejected_write_keeps_mutation (accepts : JSString → Bool) (s : State) (a : Action)
    (hrej : ∀ v : JSString, accepts v = false) (hm : mutating s a = true) :
    ∃ s1 s2 : State, step accepts s a = Except.ok s1 ∧ step acceptAll s a = Except.ok s2 ∧
      s1.tasks = s2.tasks ∧ s1.tasks ≠ s.tasks ∧ s1.store = s.store ∧
      s1.rows = s2.rows ∧ renderRows (s1.tasks.map Task.toJSVal) = Except.ok s1.rows ∧
      ViewAgrees s1 ∧ s1.consoleErrors = s.consoleErrors + 1 := by
  obtain ⟨tasks1, hne, hall⟩ := step_mutating s a hm
  obtain ⟨s1, hs1, ht1, hr1, hst1, hc1⟩ := hall accepts
  obtain ⟨s2, hs2, ht2, hr2, _, _⟩ := hall acceptAll
  refine ⟨s1, s2, hs1, hs2, by rw [ht1, ht2], by rw [ht1]; exact hne, ?_, by rw [hr1, hr2], ?_,
    viewAgrees_of_rows s1 (by rw [hr1, ht1]), ?_⟩
  · rw [hst1, hrej]
    rfl
  · rw [hr1, ht1]
    exact renderRows_tasks tasks1
  · rw [hc1, hrej]
    rfl

/-- Toggling row 0 of the two-task page against a full store. -/
theorem rejected_write_keeps_mutation_witness :
    ∃ s1 s2 : State, step rejectAll twoTasks (Action.clickDone (js "0")) = Except.ok s1 ∧
      step acceptAll twoTasks (Action.clickDone (js "0")) = Except.ok s2 ∧
      s1.tasks = s2.tasks ∧ s1.tasks ≠ twoTasks.tasks ∧ s1.store = twoTasks.store ∧
      s1.rows = s2.rows ∧ renderRows (s1.tasks.map Task.toJSVal) = Except.ok s1.rows ∧
      ViewAgrees s1 ∧ s1.consoleErrors = twoTasks.consoleErrors + 1 :=
  rejected_write_keeps_mutation rejectAll twoTasks (Action.clickDone (js "0")) (fun _ => rfl)
    (by decide)

end TodoApp
